import Mathlib

/-!
Shallow embedding of `terminal_pomodoro.py` (a terminal pomodoro timer with a
floating countdown/stopwatch window and a JSON session history), together with
theorems checking the specification's claims about it.

The timer engine lives in the class `FloatingTimerWindow`: its `count` thread
body becomes the step function `tick`, and the button/window handlers
`toggle_pause`, `finalize_action` and `on_closing` become state transformers.
The callers `run_timer` / `run_stopwatch` decide what gets persisted; their
recording decision is embedded as `run_timer_recorded` / `run_stopwatch_recorded`.
-/

namespace TerminalPomodoro

/-- State of `FloatingTimerWindow` (the fields set in `__init__` that the
timer logic reads and writes; purely presentational fields are omitted). -/
structure FloatingTimerWindow where
  is_timer : Bool
  total_seconds : Nat
  elapsed_seconds : Nat
  running : Bool
  paused : Bool
  cancelled : Bool
  saved_minutes : Option Nat
deriving DecidableEq, Repr

/-- `FloatingTimerWindow.__init__(is_timer, total_minutes)`:
`total_seconds = total_minutes * 60 if is_timer else 0`, `elapsed_seconds = 0`,
`running = True`, `paused = False`, `cancelled = False`, `saved_minutes = None`. -/
def FloatingTimerWindow.init (is_timer : Bool) (total_minutes : Nat) :
    FloatingTimerWindow :=
  { is_timer := is_timer
    total_seconds := if is_timer then total_minutes * 60 else 0
    elapsed_seconds := 0
    running := true
    paused := false
    cancelled := false
    saved_minutes := none }

/-- `finish_timer`: sets `running = False` (the rest of the method is display
teardown, a bell, and the blocking "done" message box). -/
def FloatingTimerWindow.finish_timer (w : FloatingTimerWindow) :
    FloatingTimerWindow :=
  { w with running := false }

/-- One iteration of the `count` loop.  If `running` is false the loop breaks
(state unchanged).  Otherwise, when not paused: in timer mode it computes
`remaining = total_seconds - elapsed_seconds` (Python int subtraction, hence
the `Int` cast), calls `finish_timer` when `remaining <= 0`, and otherwise
updates the display, sleeps one second and increments `elapsed_seconds`;
in stopwatch mode it updates the display, sleeps and increments.  When paused
it only refreshes the display and sleeps 0.2 s, leaving all state unchanged. -/
def FloatingTimerWindow.tick (w : FloatingTimerWindow) : FloatingTimerWindow :=
  if w.running = false then w
  else if w.paused = false then
    if w.is_timer then
      if (w.total_seconds : Int) - (w.elapsed_seconds : Int) ≤ 0 then
        w.finish_timer
      else
        { w with elapsed_seconds := w.elapsed_seconds + 1 }
    else
      { w with elapsed_seconds := w.elapsed_seconds + 1 }
  else
    w

/-- Whether one iteration of the `count` loop starting from state `w` calls
`update_display` in timer mode, i.e. performs the division
`elapsed_seconds / total_seconds` when computing progress.  This happens when
the loop is running and either paused (display refresh branch) or not yet
expired (`remaining > 0`); the `remaining <= 0` branch calls `finish_timer`,
which writes a constant ten-segment bar without dividing. -/
def FloatingTimerWindow.tick_divides_by_total (w : FloatingTimerWindow) : Bool :=
  w.running && w.is_timer &&
    (w.paused || decide (0 < (w.total_seconds : Int) - (w.elapsed_seconds : Int)))

/-- `toggle_pause`: flips `paused` (plus button-color feedback). -/
def FloatingTimerWindow.toggle_pause (w : FloatingTimerWindow) :
    FloatingTimerWindow :=
  { w with paused := !w.paused }

/-- `finalize_action`: `minutes = elapsed_seconds // 60`, capped at
`total_seconds // 60` when `is_timer`; stores it in `saved_minutes`, stops the
loop (`running = False`), and explicitly sets `cancelled = False`. -/
def FloatingTimerWindow.finalize_action (w : FloatingTimerWindow) :
    FloatingTimerWindow :=
  let minutes := w.elapsed_seconds / 60
  let minutes := if w.is_timer then min minutes (w.total_seconds / 60) else minutes
  { w with saved_minutes := some minutes, running := false, cancelled := false }

/-- `on_closing` (the window's close affordance): stops the loop and sets
`cancelled = True`. -/
def FloatingTimerWindow.on_closing (w : FloatingTimerWindow) :
    FloatingTimerWindow :=
  { w with running := false, cancelled := true }

/-- The recording decision at the end of `run_timer(objective, minutes)`:
if the window was not cancelled, `save_session` is called with
`saved_minutes` when set, else with the preset `minutes`; if cancelled,
nothing is saved (`none`). -/
def run_timer_recorded (w : FloatingTimerWindow) (preset_minutes : Nat) :
    Option Nat :=
  if w.cancelled = false then some (w.saved_minutes.getD preset_minutes)
  else none

/-- The recording decision at the end of `run_stopwatch(objective)`:
`save_session` is called exactly when `saved_minutes is not None`, with that
value. -/
def run_stopwatch_recorded (w : FloatingTimerWindow) : Option Nat :=
  w.saved_minutes

/-- Round a rational to the nearest integer, ties to even: the rounding rule
of IEEE-754 round-to-nearest-even, expressed at integer granularity. -/
def rnInt (q : ℚ) : Int :=
  if Int.fract q < 1/2 then ⌊q⌋
  else if (1:ℚ)/2 < Int.fract q then ⌊q⌋ + 1
  else if ⌊q⌋ % 2 = 0 then ⌊q⌋ else ⌊q⌋ + 1

/-- The binade exponent of a positive rational: the `k` with
`2 ^ k ≤ q < 2 ^ (k + 1)`, computed from the bit lengths of numerator and
denominator. -/
def qlog2 (q : ℚ) : Int :=
  if (2:ℚ) ^ ((Nat.log2 q.num.toNat : Int) - (Nat.log2 q.den : Int)) ≤ q
  then (Nat.log2 q.num.toNat : Int) - (Nat.log2 q.den : Int)
  else (Nat.log2 q.num.toNat : Int) - (Nat.log2 q.den : Int) - 1

/-- Rounding to IEEE-754 binary64: round-to-nearest-even at a 53-bit
significand, for values in the normal range (the only values
`update_display` can produce).  Python rounds every float arithmetic result
this way: `int / int` is the correctly rounded exact quotient and
`float * int` the correctly rounded exact product.  Zero rounds to zero;
negative inputs do not arise. -/
def roundB64 (q : ℚ) : ℚ :=
  if q ≤ 0 then 0
  else (rnInt (q * 2 ^ (52 - qlog2 q)) : ℚ) / 2 ^ (52 - qlog2 q)

/-- The progress computation in `update_display` (timer mode):
`progress = int((elapsed_seconds / total_seconds) * 10)` then
`progress = min(progress, 10)`, where the division and the multiplication
are binary64 floating-point operations (each result rounded by `roundB64`);
`int()` truncates, which on these non-negative values is the floor. -/
def progress_segments (elapsed total : Nat) : Nat :=
  min (⌊roundB64 (roundB64 ((elapsed : ℚ) / (total : ℚ)) * 10)⌋.toNat) 10

/-- The bar rendered by `update_display`:
`bars = "#" * progress + "·" * (10 - progress)`, as a list of characters. -/
def progress_bar (elapsed total : Nat) : List Char :=
  List.replicate (progress_segments elapsed total) '#' ++
    List.replicate (10 - progress_segments elapsed total) '·'

/-- A Gregorian calendar date, as produced by `datetime.date`. -/
structure CivilDate where
  year : Nat
  month : Nat
  day : Nat
deriving DecidableEq, Repr

/-- The proleptic Gregorian leap-year rule used by `datetime`. -/
def is_leap_year (y : Nat) : Bool :=
  y % 4 = 0 && (y % 100 ≠ 0 || y % 400 = 0)

/-- Number of days in month `m` of year `y` (Gregorian calendar). -/
def days_in_month (y m : Nat) : Nat :=
  if m = 2 then (if is_leap_year y then 29 else 28)
  else if m = 4 ∨ m = 6 ∨ m = 9 ∨ m = 11 then 30
  else 31

/-- The calendar day before `d`. -/
def prev_day (d : CivilDate) : CivilDate :=
  if 1 < d.day then ⟨d.year, d.month, d.day - 1⟩
  else if 1 < d.month then ⟨d.year, d.month - 1, days_in_month d.year (d.month - 1)⟩
  else ⟨d.year - 1, 12, 31⟩

/-- `d - timedelta(days = n)`. -/
def sub_days (d : CivilDate) : Nat → CivilDate
  | 0 => d
  | n + 1 => sub_days (prev_day d) n

/-- Per-session record persisted by `save_session` (the `datetime_start`
string is kept opaque). -/
structure Session where
  date : CivilDate
  datetime_start : String
  objective : String
  type : String
  minutes : Nat
deriving DecidableEq, Repr

/-- The three relevant conditions of the history file on disk: absent,
present but not valid JSON, or a well-formed session array. -/
inductive HistoryFileState where
  | absent
  | corrupt
  | wellFormed (sessions : List Session)

/-- What `load_history` returns, plus whether it printed the corrupt-file
warning. -/
structure LoadResult where
  history : List Session
  warned : Bool
deriving DecidableEq, Repr

/-- `load_history()`: returns `[]` when the file does not exist; on
`json.JSONDecodeError` prints a warning and returns `[]`; otherwise returns
the parsed array. -/
def load_history : HistoryFileState → LoadResult
  | .absent => ⟨[], false⟩
  | .corrupt => ⟨[], true⟩
  | .wellFormed sessions => ⟨sessions, false⟩

/-- `aggregate_by_date(history, date_str)`: sums the minutes of the sessions
whose `date` equals the query date. -/
def aggregate_by_date (history : List Session) (d : CivilDate) : Nat :=
  history.foldl (fun total s => if s.date = d then total + s.minutes else total) 0

/-- Lexicographic order on dates, matching `datetime.date` comparison. -/
def date_le (a b : CivilDate) : Bool :=
  a.year < b.year ||
    (a.year = b.year &&
      (a.month < b.month || (a.month = b.month && a.day ≤ b.day)))

/-- The inner sum of `show_weekly_history`: minutes of sessions with
`week_start <= session_date <= week_end`. -/
def range_total (history : List Session) (lo hi : CivilDate) : Nat :=
  history.foldl
    (fun total s => if date_le lo s.date && date_le s.date hi then total + s.minutes
                    else total) 0

/-- The inner sum of `show_monthly_history`: minutes of sessions with
`session_date.year == year and session_date.month == month`. -/
def monthly_total (history : List Session) (y m : Nat) : Nat :=
  history.foldl
    (fun total s => if s.date.year = y ∧ s.date.month = m then total + s.minutes
                    else total) 0

/-- The twelve `(year, month)` buckets scanned by `show_monthly_history`:
`for i in range(11, -1, -1): month_date = today.replace(day=1) - timedelta(days=i*30)`. -/
def month_buckets (today : CivilDate) : List (Nat × Nat) :=
  ((List.range 12).reverse).map (fun i =>
    let md := sub_days ⟨today.year, today.month, 1⟩ (i * 30)
    (md.year, md.month))

/-- The rows computed by `show_monthly_history`: for each bucket, its year,
month and aggregated minutes. -/
def show_monthly_history_totals (today : CivilDate) (history : List Session) :
    List (Nat × Nat × Nat) :=
  (month_buckets today).map (fun ym => (ym.1, ym.2, monthly_total history ym.1 ym.2))

/-- States of the window reachable in a session: the initial state, closed
under the `count` loop step and the three user-triggered handlers. -/
inductive Reachable : FloatingTimerWindow → Prop where
  | start (b : Bool) (m : Nat) : Reachable (FloatingTimerWindow.init b m)
  | step (w : FloatingTimerWindow) : Reachable w → Reachable w.tick
  | pause (w : FloatingTimerWindow) : Reachable w → Reachable w.toggle_pause
  | finalize (w : FloatingTimerWindow) : Reachable w → Reachable w.finalize_action
  | close (w : FloatingTimerWindow) : Reachable w → Reachable w.on_closing

namespace FloatingTimerWindow

theorem tick_saved_minutes (w : FloatingTimerWindow) :
    w.tick.saved_minutes = w.saved_minutes := by
  unfold tick finish_timer
  split_ifs <;> rfl

theorem tick_cancelled (w : FloatingTimerWindow) :
    w.tick.cancelled = w.cancelled := by
  unfold tick finish_timer
  split_ifs <;> rfl

theorem tick_running_of (w : FloatingTimerWindow) (h : w.tick.running = true) :
    w.running = true := by
  by_cases hr : w.running = true
  · exact hr
  · exfalso
    have hb : w.running = false := by
      cases hw : w.running
      · rfl
      · exact absurd hw hr
    rw [tick, if_pos hb] at h
    rw [hb] at h
    exact Bool.false_ne_true h

theorem tick_of_not_running (w : FloatingTimerWindow) (h : w.running = false) :
    w.tick = w := by
  rw [tick, if_pos h]

theorem tick_of_paused (w : FloatingTimerWindow) (h : w.paused = true) :
    w.tick = w := by
  simp [tick, h]

theorem toggle_pause_toggle_pause (w : FloatingTimerWindow) :
    w.toggle_pause.toggle_pause = w := by
  cases w
  simp [toggle_pause]

theorem tick_is_timer (w : FloatingTimerWindow) :
    w.tick.is_timer = w.is_timer := by
  unfold tick finish_timer
  split_ifs <;> rfl

theorem tick_total_seconds (w : FloatingTimerWindow) :
    w.tick.total_seconds = w.total_seconds := by
  unfold tick finish_timer
  split_ifs <;> rfl

/-- An iteration of `count` in running, unpaused timer mode with time still
remaining just advances `elapsed_seconds` by one. -/
theorem tick_step (w : FloatingTimerWindow) (hr : w.running = true)
    (hp : w.paused = false) (ht : w.is_timer = true)
    (hlt : w.elapsed_seconds < w.total_seconds) :
    w.tick = { w with elapsed_seconds := w.elapsed_seconds + 1 } := by
  have h2 : ¬ ((w.total_seconds : Int) - (w.elapsed_seconds : Int) ≤ 0) := by
    omega
  simp [tick, hr, hp, ht, h2]

/-- An iteration of `count` in running, unpaused timer mode with
`remaining <= 0` calls `finish_timer`. -/
theorem tick_expired (w : FloatingTimerWindow) (hr : w.running = true)
    (hp : w.paused = false) (ht : w.is_timer = true)
    (hge : w.total_seconds ≤ w.elapsed_seconds) :
    w.tick = w.finish_timer := by
  have h2 : (w.total_seconds : Int) - (w.elapsed_seconds : Int) ≤ 0 := by
    omega
  simp [tick, hr, hp, ht, h2]

/-- A single `count` iteration keeps `elapsed_seconds <= total_seconds` in
timer mode. -/
theorem tick_preserves_le (w : FloatingTimerWindow) (ht : w.is_timer = true)
    (hle : w.elapsed_seconds ≤ w.total_seconds) :
    w.tick.elapsed_seconds ≤ w.tick.total_seconds := by
  by_cases h1 : w.running = false
  · rw [w.tick_of_not_running h1]
    exact hle
  · by_cases h2 : w.paused = true
    · rw [w.tick_of_paused h2]
      exact hle
    · have hp : w.paused = false := by
        cases hb : w.paused
        · rfl
        · exact absurd hb h2
      have hr : w.running = true := by
        cases hb : w.running
        · exact absurd hb h1
        · rfl
      by_cases h4 : w.total_seconds ≤ w.elapsed_seconds
      · rw [w.tick_expired hr hp ht h4]
        exact hle
      · rw [w.tick_step hr hp ht (by omega)]
        show w.elapsed_seconds + 1 ≤ w.total_seconds
        omega

end FloatingTimerWindow

/-- Invariant: in any reachable state that is still running, no terminal
outcome has been set: `saved_minutes` is `None` and `cancelled` is false. -/
theorem reachable_running_no_outcome (w : FloatingTimerWindow)
    (h : Reachable w) (hr : w.running = true) :
    w.saved_minutes = none ∧ w.cancelled = false := by
  induction h with
  | start b m => exact ⟨rfl, rfl⟩
  | step v _ ih =>
      have hv : v.running = true := v.tick_running_of hr
      rcases ih hv with ⟨h1, h2⟩
      exact ⟨(v.tick_saved_minutes).trans h1, (v.tick_cancelled).trans h2⟩
  | pause v _ ih =>
      rcases ih hr with ⟨h1, h2⟩
      exact ⟨h1, h2⟩
  | finalize v _ ih =>
      exact absurd hr (by simp [FloatingTimerWindow.finalize_action])
  | close v _ ih =>
      exact absurd hr (by simp [FloatingTimerWindow.on_closing])

/-- Invariant: in timer mode, `elapsed_seconds` never exceeds `total_seconds`
in any reachable state. -/
theorem reachable_elapsed_le_total (w : FloatingTimerWindow) (h : Reachable w)
    (ht : w.is_timer = true) : w.elapsed_seconds ≤ w.total_seconds := by
  induction h with
  | start b m => exact Nat.zero_le _
  | step v _ ih =>
      have htv : v.is_timer = true := by rw [← v.tick_is_timer]; exact ht
      exact v.tick_preserves_le htv (ih htv)
  | pause v _ ih => exact ih ht
  | finalize v _ ih => exact ih ht
  | close v _ ih => exact ih ht

/-- First `n <= total` iterations of the `count` loop on a fresh countdown
window of `m` minutes simply advance `elapsed_seconds` to `n`. -/
theorem tick_iterate_init (m n : Nat) (hn : n ≤ m * 60) :
    FloatingTimerWindow.tick^[n] (FloatingTimerWindow.init true m) =
      { FloatingTimerWindow.init true m with elapsed_seconds := n } := by
  induction n with
  | zero => rfl
  | succ k ih =>
      have hk : k ≤ m * 60 := Nat.le_of_succ_le hn
      rw [Function.iterate_succ_apply', ih hk]
      rw [FloatingTimerWindow.tick_step _ rfl rfl rfl]
      show (m * 60 : Nat) > k
      have : (FloatingTimerWindow.init true m).total_seconds = m * 60 := rfl
      omega

/-- `rnInt` is determined on any value strictly within half a unit of an
integer. -/
theorem rnInt_eq_of_bounds (q : ℚ) (n : ℤ) (h1 : (n:ℚ) - 1/2 < q)
    (h2 : q < (n:ℚ) + 1/2) : rnInt q = n := by
  have hfq := Int.floor_add_fract q
  have hf0 := Int.fract_nonneg q
  have hf1 := Int.fract_lt_one q
  by_cases hge : (n:ℚ) ≤ q
  · have hfl : ⌊q⌋ = n := by
      rw [Int.floor_eq_iff]
      exact ⟨hge, by linarith⟩
    have hcast : ((⌊q⌋ : ℤ) : ℚ) = (n:ℚ) := by rw [hfl]
    have hfr : Int.fract q < 1/2 := by linarith
    unfold rnInt
    rw [if_pos hfr]
    exact hfl
  · push_neg at hge
    have hfl : ⌊q⌋ = n - 1 := by
      rw [Int.floor_eq_iff]
      constructor
      · push_cast
        linarith
      · push_cast
        linarith
    have hcast : ((⌊q⌋ : ℤ) : ℚ) = (n:ℚ) - 1 := by
      rw [hfl]
      push_cast
      ring
    have hfr1 : ¬ Int.fract q < 1/2 := by
      push_neg
      linarith
    have hfr2 : (1:ℚ)/2 < Int.fract q := by linarith
    unfold rnInt
    rw [if_neg hfr1, if_pos hfr2, hfl]
    omega

/-- `rnInt` on an exact half-integer: the tie goes to the even neighbour. -/
theorem rnInt_int_add_half (m : ℤ) :
    rnInt ((m:ℚ) + 1/2) = if m % 2 = 0 then m else m + 1 := by
  have hfr : Int.fract ((m:ℚ) + 1/2) = 1/2 := by
    rw [add_comm, Int.fract_add_int]
    rw [Int.fract_eq_self.mpr ⟨by norm_num, by norm_num⟩]
  have hfl : ⌊(m:ℚ) + 1/2⌋ = m := by
    rw [add_comm, Int.floor_add_int]
    norm_num
  unfold rnInt
  rw [hfr, hfl, if_neg (lt_irrefl _), if_neg (lt_irrefl _)]

/-- `rnInt` moves a value by at most half a unit. -/
theorem abs_rnInt_sub_le (q : ℚ) : |(rnInt q : ℚ) - q| ≤ 1/2 := by
  have hfq := Int.floor_add_fract q
  have hf0 := Int.fract_nonneg q
  have hf1 := Int.fract_lt_one q
  unfold rnInt
  split_ifs with hlt hgt hev
  · rw [abs_le]
    constructor <;> linarith
  · rw [abs_le]
    push_cast
    constructor <;> linarith
  · rw [abs_le]
    constructor <;> linarith
  · rw [abs_le]
    push_cast
    constructor <;> linarith

/-- Bit-length bounds transported to a quotient of naturals: the quotient
lies strictly between the two powers of two surrounding the bit-length
difference. -/
theorem qlog2_aux (a b : ℕ) (ha : a ≠ 0) (hb : b ≠ 0) :
    (2:ℚ) ^ ((Nat.log2 a : Int) - (Nat.log2 b : Int) - 1) < (a:ℚ) / (b:ℚ) ∧
    (a:ℚ) / (b:ℚ) < (2:ℚ) ^ ((Nat.log2 a : Int) - (Nat.log2 b : Int) + 1) := by
  have hbpos : (0:ℚ) < (b:ℚ) := by
    have : 0 < b := Nat.pos_of_ne_zero hb
    exact_mod_cast this
  have hA1 : (2:ℚ) ^ (Nat.log2 a) ≤ (a:ℚ) := by
    exact_mod_cast Nat.log2_self_le ha
  have hA2 : (a:ℚ) < 2 ^ (Nat.log2 a + 1) := by
    exact_mod_cast Nat.lt_log2_self
  have hB1 : (2:ℚ) ^ (Nat.log2 b) ≤ (b:ℚ) := by
    exact_mod_cast Nat.log2_self_le hb
  have hB2 : (b:ℚ) < 2 ^ (Nat.log2 b + 1) := by
    exact_mod_cast Nat.lt_log2_self
  constructor
  · have h1 : (2:ℚ) ^ ((Nat.log2 a : Int) - (Nat.log2 b : Int) - 1)
        = (2:ℚ) ^ (Nat.log2 a) / 2 ^ (Nat.log2 b + 1) := by
      rw [eq_div_iff (by positivity), ← zpow_natCast (2:ℚ) (Nat.log2 a),
        ← zpow_natCast (2:ℚ) (Nat.log2 b + 1), ← zpow_add₀ (by norm_num : (2:ℚ) ≠ 0)]
      congr 1
      push_cast
      ring
    rw [h1, div_lt_div_iff₀ (by positivity) hbpos]
    calc (2:ℚ) ^ (Nat.log2 a) * (b:ℚ)
        < 2 ^ (Nat.log2 a) * 2 ^ (Nat.log2 b + 1) := by
          apply mul_lt_mul_of_pos_left hB2 (by positivity)
      _ = 2 ^ (Nat.log2 b + 1) * 2 ^ (Nat.log2 a) := by ring
      _ ≤ 2 ^ (Nat.log2 b + 1) * (a:ℚ) := by
          apply mul_le_mul_of_nonneg_left hA1 (by positivity)
      _ = (a:ℚ) * 2 ^ (Nat.log2 b + 1) := by ring
  · have h1 : (2:ℚ) ^ ((Nat.log2 a : Int) - (Nat.log2 b : Int) + 1)
        = (2:ℚ) ^ (Nat.log2 a + 1) / 2 ^ (Nat.log2 b) := by
      rw [eq_div_iff (by positivity), ← zpow_natCast (2:ℚ) (Nat.log2 a + 1),
        ← zpow_natCast (2:ℚ) (Nat.log2 b), ← zpow_add₀ (by norm_num : (2:ℚ) ≠ 0)]
      congr 1
      push_cast
      ring
    rw [h1, div_lt_div_iff₀ hbpos (by positivity)]
    calc (a:ℚ) * 2 ^ (Nat.log2 b)
        < 2 ^ (Nat.log2 a + 1) * 2 ^ (Nat.log2 b) := by
          apply mul_lt_mul_of_pos_right hA2 (by positivity)
      _ ≤ 2 ^ (Nat.log2 a + 1) * (b:ℚ) := by
          apply mul_le_mul_of_nonneg_left hB1 (by positivity)

/-- `qlog2` satisfies the binade inequalities on positive rationals. -/
theorem qlog2_spec (q : ℚ) (hq : 0 < q) :
    (2:ℚ) ^ qlog2 q ≤ q ∧ q < (2:ℚ) ^ (qlog2 q + 1) := by
  have hnum : 0 < q.num := Rat.num_pos.mpr hq
  have ha0 : q.num.toNat ≠ 0 := by omega
  have hb0 : q.den ≠ 0 := q.den_nz
  have hqa : ((q.num.toNat : ℕ) : ℚ) / ((q.den : ℕ) : ℚ) = q := by
    have h : ((q.num.toNat : ℕ) : ℚ) = ((q.num : ℤ) : ℚ) := by
      norm_cast
      omega
    rw [h]
    exact Rat.num_div_den q
  obtain ⟨hzlow, hzhigh⟩ := qlog2_aux q.num.toNat q.den ha0 hb0
  rw [hqa] at hzlow hzhigh
  unfold qlog2
  split_ifs with hcond
  · exact ⟨hcond, hzhigh⟩
  · constructor
    · exact le_of_lt hzlow
    · have h : (Nat.log2 q.num.toNat : Int) - (Nat.log2 q.den : Int) - 1 + 1
          = (Nat.log2 q.num.toNat : Int) - (Nat.log2 q.den : Int) := by ring
      rw [h]
      exact lt_of_not_le hcond

/-- `qlog2` is the unique binade exponent. -/
theorem qlog2_unique (q : ℚ) (hq : 0 < q) (k : ℤ)
    (h1 : (2:ℚ) ^ k ≤ q) (h2 : q < (2:ℚ) ^ (k + 1)) : qlog2 q = k := by
  obtain ⟨g1, g2⟩ := qlog2_spec q hq
  by_contra hne
  rcases lt_or_gt_of_ne hne with hlt | hgt
  · have : (2:ℚ) ^ (qlog2 q + 1) ≤ 2 ^ k := by
      apply zpow_le_zpow_right₀ (by norm_num)
      omega
    linarith
  · have : (2:ℚ) ^ (k + 1) ≤ 2 ^ (qlog2 q) := by
      apply zpow_le_zpow_right₀ (by norm_num)
      omega
    linarith

/-- Evaluating `roundB64` from a binade exponent and a nearest-integer
computation at the scaled significand. -/
theorem roundB64_eq (q : ℚ) (hq : 0 < q) (k : ℤ)
    (h1 : (2:ℚ) ^ k ≤ q) (h2 : q < (2:ℚ) ^ (k + 1)) (n : ℤ)
    (hn : rnInt (q * 2 ^ (52 - k)) = n) :
    roundB64 q = (n:ℚ) / 2 ^ (52 - k) := by
  rw [roundB64, if_neg (not_le.mpr hq), qlog2_unique q hq k h1 h2, hn]

/-- Relative error of one binary64 rounding: at most `2^-53` of the value. -/
theorem roundB64_err (q : ℚ) (hq : 0 < q) :
    |roundB64 q - q| ≤ q * (2:ℚ) ^ ((-53 : ℤ)) := by
  obtain ⟨h1, _⟩ := qlog2_spec q hq
  set k := qlog2 q with hk
  have hs : (0:ℚ) < 2 ^ (52 - k) := by positivity
  rw [roundB64, if_neg (not_le.mpr hq)]
  have key : (rnInt (q * 2 ^ (52 - k)) : ℚ) / 2 ^ (52 - k) - q
      = ((rnInt (q * 2 ^ (52 - k)) : ℚ) - q * 2 ^ (52 - k)) / 2 ^ (52 - k) := by
    field_simp
    ring
  rw [key, abs_div, abs_of_pos hs]
  have hb := abs_rnInt_sub_le (q * 2 ^ (52 - k))
  have step1 : |(rnInt (q * 2 ^ (52 - k)) : ℚ) - q * 2 ^ (52 - k)| / 2 ^ (52 - k)
      ≤ (1/2) / 2 ^ (52 - k) := by
    gcongr
  have step2 : ((1:ℚ)/2) / 2 ^ (52 - k) = 2 ^ (k - 53) := by
    rw [div_eq_iff (ne_of_gt hs), ← zpow_add₀ (by norm_num : (2:ℚ) ≠ 0)]
    have h : k - 53 + (52 - k) = (-1 : ℤ) := by ring
    rw [h]
    norm_num
  have step3 : (2:ℚ) ^ (k - 53) ≤ q * 2 ^ ((-53 : ℤ)) := by
    have he : (2:ℚ) ^ (k - 53) = 2 ^ k * 2 ^ ((-53 : ℤ)) := by
      rw [← zpow_add₀ (by norm_num : (2:ℚ) ≠ 0)]
      congr 1
    rw [he]
    apply mul_le_mul_of_nonneg_right h1 (by positivity)
  calc |(rnInt (q * 2 ^ (52 - k)) : ℚ) - q * 2 ^ (52 - k)| / 2 ^ (52 - k)
      ≤ (1/2) / 2 ^ (52 - k) := step1
    _ = 2 ^ (k - 53) := step2
    _ ≤ q * 2 ^ ((-53 : ℤ)) := step3

/-- The number of `#` characters in the rendered bar is the segment count. -/
theorem progress_bar_count (elapsed total : Nat) :
    (progress_bar elapsed total).count '#' = progress_segments elapsed total := by
  unfold progress_bar
  rw [List.count_append, List.count_replicate_self, List.count_replicate]
  rw [if_neg (by decide)]
  rw [Nat.add_zero]

/-- C1: `finalize_action` always records `elapsed_seconds // 60` minutes,
capped at `total_seconds // 60` in countdown (timer) mode and uncapped in
stopwatch mode; that stored value is exactly what `run_timer` and
`run_stopwatch` then persist. -/
theorem claim_C1_finalize_minutes (w : FloatingTimerWindow) (preset : Nat) :
    w.finalize_action.saved_minutes =
      some (if w.is_timer then
              min (w.elapsed_seconds / 60) (w.total_seconds / 60)
            else w.elapsed_seconds / 60) ∧
    run_timer_recorded w.finalize_action preset = w.finalize_action.saved_minutes ∧
    run_stopwatch_recorded w.finalize_action = w.finalize_action.saved_minutes :=
  ⟨rfl, rfl, rfl⟩

/-- C2 counterexample: with a 1-minute countdown (D = 60 seconds), after
exactly D = 60 ticks the engine is still running with `elapsed_seconds = 60`
and nothing recorded — it has not reached `Finished(Natural)`. -/
theorem claim_C2_counterexample :
    (FloatingTimerWindow.tick^[60] (FloatingTimerWindow.init true 1)).running = true ∧
    (FloatingTimerWindow.tick^[60] (FloatingTimerWindow.init true 1)).elapsed_seconds = 60 ∧
    (FloatingTimerWindow.tick^[60] (FloatingTimerWindow.init true 1)).saved_minutes = none := by
  rw [tick_iterate_init 1 60 (by omega)]
  exact ⟨rfl, rfl, rfl⟩

/-- C2 (amended): for every countdown of `m >= 1` minutes (`D = m * 60`
seconds), after exactly D ticks the engine is still running with
`elapsed_seconds = D`; the (D+1)-th tick detects expiry and reaches
`Finished(Natural)` (stopped, not cancelled, nothing finalized), whereupon
`run_timer` records `D // 60` minutes — the full preset duration. -/
theorem claim_C2_amended (m : Nat) (hm : 1 ≤ m) :
    (FloatingTimerWindow.tick^[m * 60] (FloatingTimerWindow.init true m)).running = true ∧
    (FloatingTimerWindow.tick^[m * 60] (FloatingTimerWindow.init true m)).elapsed_seconds = m * 60 ∧
    (FloatingTimerWindow.tick^[m * 60 + 1] (FloatingTimerWindow.init true m)).running = false ∧
    (FloatingTimerWindow.tick^[m * 60 + 1] (FloatingTimerWindow.init true m)).cancelled = false ∧
    (FloatingTimerWindow.tick^[m * 60 + 1] (FloatingTimerWindow.init true m)).saved_minutes = none ∧
    run_timer_recorded
        (FloatingTimerWindow.tick^[m * 60 + 1] (FloatingTimerWindow.init true m)) m
      = some ((m * 60) / 60) := by
  have hbase := tick_iterate_init m (m * 60) (le_refl _)
  have hnext : FloatingTimerWindow.tick^[m * 60 + 1] (FloatingTimerWindow.init true m)
      = ({ FloatingTimerWindow.init true m with
            elapsed_seconds := m * 60 } : FloatingTimerWindow).finish_timer := by
    rw [Function.iterate_succ_apply', hbase]
    refine FloatingTimerWindow.tick_expired _ rfl rfl rfl ?_
    show m * 60 ≤ m * 60
    omega
  have hdiv : (m * 60) / 60 = m := by omega
  refine ⟨?_, ?_, ?_, ?_, ?_, ?_⟩
  · rw [hbase]
    rfl
  · rw [hbase]
  · rw [hnext]
    rfl
  · rw [hnext]
    rfl
  · rw [hnext]
    rfl
  · rw [hnext, hdiv]
    rfl

/-- Witness for C2 (amended) at the concrete countdown m = 1 minute. -/
theorem claim_C2_amended_witness :
    1 ≤ 1 ∧
    ((FloatingTimerWindow.tick^[1 * 60] (FloatingTimerWindow.init true 1)).running = true ∧
     (FloatingTimerWindow.tick^[1 * 60] (FloatingTimerWindow.init true 1)).elapsed_seconds = 1 * 60 ∧
     (FloatingTimerWindow.tick^[1 * 60 + 1] (FloatingTimerWindow.init true 1)).running = false ∧
     (FloatingTimerWindow.tick^[1 * 60 + 1] (FloatingTimerWindow.init true 1)).cancelled = false ∧
     (FloatingTimerWindow.tick^[1 * 60 + 1] (FloatingTimerWindow.init true 1)).saved_minutes = none ∧
     run_timer_recorded
         (FloatingTimerWindow.tick^[1 * 60 + 1] (FloatingTimerWindow.init true 1)) 1
       = some ((1 * 60) / 60)) :=
  ⟨le_refl 1, claim_C2_amended 1 (le_refl 1)⟩

/-- C3: once paused, any number of `count` iterations leaves the state (and
in particular `elapsed_seconds`) untouched, and resuming restores exactly the
pre-pause state, so advancement continues from the value held at pause time. -/
theorem claim_C3_pause_no_drift (w : FloatingTimerWindow) (n : Nat)
    (hp : w.paused = false) :
    FloatingTimerWindow.tick^[n] w.toggle_pause = w.toggle_pause ∧
    (FloatingTimerWindow.tick^[n] w.toggle_pause).elapsed_seconds = w.elapsed_seconds ∧
    (FloatingTimerWindow.tick^[n] w.toggle_pause).toggle_pause = w := by
  have hpaused : w.toggle_pause.paused = true := by
    simp [FloatingTimerWindow.toggle_pause, hp]
  have hiter : FloatingTimerWindow.tick^[n] w.toggle_pause = w.toggle_pause :=
    Function.iterate_fixed (FloatingTimerWindow.tick_of_paused _ hpaused) n
  refine ⟨hiter, ?_, ?_⟩
  · rw [hiter]
    rfl
  · rw [hiter]
    exact w.toggle_pause_toggle_pause

/-- Witness for C3: pause a fresh 1-minute countdown, tick 5 times, resume. -/
theorem claim_C3_witness :
    (FloatingTimerWindow.init true 1).paused = false ∧
    (FloatingTimerWindow.tick^[5] (FloatingTimerWindow.init true 1).toggle_pause
       = (FloatingTimerWindow.init true 1).toggle_pause ∧
     (FloatingTimerWindow.tick^[5] (FloatingTimerWindow.init true 1).toggle_pause).elapsed_seconds
       = (FloatingTimerWindow.init true 1).elapsed_seconds ∧
     (FloatingTimerWindow.tick^[5] (FloatingTimerWindow.init true 1).toggle_pause).toggle_pause
       = FloatingTimerWindow.init true 1) :=
  ⟨rfl, claim_C3_pause_no_drift (FloatingTimerWindow.init true 1) 5 rfl⟩

/-- Concrete binary64 evaluation: the eleven exact tenths `c/10`
(`c = 0..10`) all return exactly `c` after the division rounding, the
multiplication by 10 and the truncation. -/
theorem floor_tenths (c : ℕ) (hc : c ≤ 10) :
    ⌊roundB64 (roundB64 ((c:ℚ) / 10) * 10)⌋ = (c:ℤ) := by
  interval_cases c
  · push_cast
    norm_num [roundB64]
  · push_cast
    have r1 : roundB64 ((1:ℚ) / 10)
        = ((7205759403792794:ℤ) : ℚ) / 2 ^ ((52:ℤ) - (-4)) :=
      roundB64_eq _ (by norm_num) _ (by norm_num) (by norm_num) _
        (rnInt_eq_of_bounds _ _ (by norm_num) (by norm_num))
    have r2 : roundB64 (((7205759403792794:ℤ) : ℚ) / 2 ^ ((52:ℤ) - (-4)) * 10)
        = ((4503599627370496:ℤ) : ℚ) / 2 ^ ((52:ℤ) - 0) :=
      roundB64_eq _ (by norm_num) _ (by norm_num) (by norm_num) _
        (rnInt_eq_of_bounds _ _ (by norm_num) (by norm_num))
    rw [r1, r2]
    rw [show ((4503599627370496:ℤ) : ℚ) / 2 ^ ((52:ℤ) - 0) = ((1:ℤ):ℚ) from by norm_num]
    rw [Int.floor_intCast]
  · push_cast
    have r1 : roundB64 ((2:ℚ) / 10)
        = ((7205759403792794:ℤ) : ℚ) / 2 ^ ((52:ℤ) - (-3)) :=
      roundB64_eq _ (by norm_num) _ (by norm_num) (by norm_num) _
        (rnInt_eq_of_bounds _ _ (by norm_num) (by norm_num))
    have r2 : roundB64 (((7205759403792794:ℤ) : ℚ) / 2 ^ ((52:ℤ) - (-3)) * 10)
        = ((4503599627370496:ℤ) : ℚ) / 2 ^ ((52:ℤ) - 1) :=
      roundB64_eq _ (by norm_num) _ (by norm_num) (by norm_num) _
        (rnInt_eq_of_bounds _ _ (by norm_num) (by norm_num))
    rw [r1, r2]
    rw [show ((4503599627370496:ℤ) : ℚ) / 2 ^ ((52:ℤ) - 1) = ((2:ℤ):ℚ) from by norm_num]
    rw [Int.floor_intCast]
  · push_cast
    have r1 : roundB64 ((3:ℚ) / 10)
        = ((5404319552844595:ℤ) : ℚ) / 2 ^ ((52:ℤ) - (-2)) :=
      roundB64_eq _ (by norm_num) _ (by norm_num) (by norm_num) _
        (rnInt_eq_of_bounds _ _ (by norm_num) (by norm_num))
    have r2 : roundB64 (((5404319552844595:ℤ) : ℚ) / 2 ^ ((52:ℤ) - (-2)) * 10)
        = ((6755399441055744:ℤ) : ℚ) / 2 ^ ((52:ℤ) - 1) :=
      roundB64_eq _ (by norm_num) _ (by norm_num) (by norm_num) _
        (rnInt_eq_of_bounds _ _ (by norm_num) (by norm_num))
    rw [r1, r2]
    rw [show ((6755399441055744:ℤ) : ℚ) / 2 ^ ((52:ℤ) - 1) = ((3:ℤ):ℚ) from by norm_num]
    rw [Int.floor_intCast]
  · push_cast
    have r1 : roundB64 ((4:ℚ) / 10)
        = ((7205759403792794:ℤ) : ℚ) / 2 ^ ((52:ℤ) - (-2)) :=
      roundB64_eq _ (by norm_num) _ (by norm_num) (by norm_num) _
        (rnInt_eq_of_bounds _ _ (by norm_num) (by norm_num))
    have r2 : roundB64 (((7205759403792794:ℤ) : ℚ) / 2 ^ ((52:ℤ) - (-2)) * 10)
        = ((4503599627370496:ℤ) : ℚ) / 2 ^ ((52:ℤ) - 2) :=
      roundB64_eq _ (by norm_num) _ (by norm_num) (by norm_num) _
        (rnInt_eq_of_bounds _ _ (by norm_num) (by norm_num))
    rw [r1, r2]
    rw [show ((4503599627370496:ℤ) : ℚ) / 2 ^ ((52:ℤ) - 2) = ((4:ℤ):ℚ) from by norm_num]
    rw [Int.floor_intCast]
  · push_cast
    have r1 : roundB64 ((5:ℚ) / 10)
        = ((4503599627370496:ℤ) : ℚ) / 2 ^ ((52:ℤ) - (-1)) :=
      roundB64_eq _ (by norm_num) _ (by norm_num) (by norm_num) _
        (rnInt_eq_of_bounds _ _ (by norm_num) (by norm_num))
    have r2 : roundB64 (((4503599627370496:ℤ) : ℚ) / 2 ^ ((52:ℤ) - (-1)) * 10)
        = ((5629499534213120:ℤ) : ℚ) / 2 ^ ((52:ℤ) - 2) :=
      roundB64_eq _ (by norm_num) _ (by norm_num) (by norm_num) _
        (rnInt_eq_of_bounds _ _ (by norm_num) (by norm_num))
    rw [r1, r2]
    rw [show ((5629499534213120:ℤ) : ℚ) / 2 ^ ((52:ℤ) - 2) = ((5:ℤ):ℚ) from by norm_num]
    rw [Int.floor_intCast]
  · push_cast
    have r1 : roundB64 ((6:ℚ) / 10)
        = ((5404319552844595:ℤ) : ℚ) / 2 ^ ((52:ℤ) - (-1)) :=
      roundB64_eq _ (by norm_num) _ (by norm_num) (by norm_num) _
        (rnInt_eq_of_bounds _ _ (by norm_num) (by norm_num))
    have r2 : roundB64 (((5404319552844595:ℤ) : ℚ) / 2 ^ ((52:ℤ) - (-1)) * 10)
        = ((6755399441055744:ℤ) : ℚ) / 2 ^ ((52:ℤ) - 2) :=
      roundB64_eq _ (by norm_num) _ (by norm_num) (by norm_num) _
        (rnInt_eq_of_bounds _ _ (by norm_num) (by norm_num))
    rw [r1, r2]
    rw [show ((6755399441055744:ℤ) : ℚ) / 2 ^ ((52:ℤ) - 2) = ((6:ℤ):ℚ) from by norm_num]
    rw [Int.floor_intCast]
  · push_cast
    have r1 : roundB64 ((7:ℚ) / 10)
        = ((6305039478318694:ℤ) : ℚ) / 2 ^ ((52:ℤ) - (-1)) :=
      roundB64_eq _ (by norm_num) _ (by norm_num) (by norm_num) _
        (rnInt_eq_of_bounds _ _ (by norm_num) (by norm_num))
    have r2 : roundB64 (((6305039478318694:ℤ) : ℚ) / 2 ^ ((52:ℤ) - (-1)) * 10)
        = ((7881299347898368:ℤ) : ℚ) / 2 ^ ((52:ℤ) - 2) :=
      roundB64_eq _ (by norm_num) _ (by norm_num) (by norm_num) _
        (by
          rw [show ((6305039478318694:ℤ) : ℚ) / 2 ^ ((52:ℤ) - (-1)) * 10 * 2 ^ ((52:ℤ) - 2)
              = ((7881299347898367:ℤ):ℚ) + 1/2 from by norm_num]
          rw [rnInt_int_add_half]
          norm_num)
    rw [r1, r2]
    rw [show ((7881299347898368:ℤ) : ℚ) / 2 ^ ((52:ℤ) - 2) = ((7:ℤ):ℚ) from by norm_num]
    rw [Int.floor_intCast]
  · push_cast
    have r1 : roundB64 ((8:ℚ) / 10)
        = ((7205759403792794:ℤ) : ℚ) / 2 ^ ((52:ℤ) - (-1)) :=
      roundB64_eq _ (by norm_num) _ (by norm_num) (by norm_num) _
        (rnInt_eq_of_bounds _ _ (by norm_num) (by norm_num))
    have r2 : roundB64 (((7205759403792794:ℤ) : ℚ) / 2 ^ ((52:ℤ) - (-1)) * 10)
        = ((4503599627370496:ℤ) : ℚ) / 2 ^ ((52:ℤ) - 3) :=
      roundB64_eq _ (by norm_num) _ (by norm_num) (by norm_num) _
        (rnInt_eq_of_bounds _ _ (by norm_num) (by norm_num))
    rw [r1, r2]
    rw [show ((4503599627370496:ℤ) : ℚ) / 2 ^ ((52:ℤ) - 3) = ((8:ℤ):ℚ) from by norm_num]
    rw [Int.floor_intCast]
  · push_cast
    have r1 : roundB64 ((9:ℚ) / 10)
        = ((8106479329266893:ℤ) : ℚ) / 2 ^ ((52:ℤ) - (-1)) :=
      roundB64_eq _ (by norm_num) _ (by norm_num) (by norm_num) _
        (rnInt_eq_of_bounds _ _ (by norm_num) (by norm_num))
    have r2 : roundB64 (((8106479329266893:ℤ) : ℚ) / 2 ^ ((52:ℤ) - (-1)) * 10)
        = ((5066549580791808:ℤ) : ℚ) / 2 ^ ((52:ℤ) - 3) :=
      roundB64_eq _ (by norm_num) _ (by norm_num) (by norm_num) _
        (rnInt_eq_of_bounds _ _ (by norm_num) (by norm_num))
    rw [r1, r2]
    rw [show ((5066549580791808:ℤ) : ℚ) / 2 ^ ((52:ℤ) - 3) = ((9:ℤ):ℚ) from by norm_num]
    rw [Int.floor_intCast]
  · push_cast
    have r1 : roundB64 ((10:ℚ) / 10)
        = ((4503599627370496:ℤ) : ℚ) / 2 ^ ((52:ℤ) - 0) :=
      roundB64_eq _ (by norm_num) _ (by norm_num) (by norm_num) _
        (rnInt_eq_of_bounds _ _ (by norm_num) (by norm_num))
    have r2 : roundB64 (((4503599627370496:ℤ) : ℚ) / 2 ^ ((52:ℤ) - 0) * 10)
        = ((5629499534213120:ℤ) : ℚ) / 2 ^ ((52:ℤ) - 3) :=
      roundB64_eq _ (by norm_num) _ (by norm_num) (by norm_num) _
        (rnInt_eq_of_bounds _ _ (by norm_num) (by norm_num))
    rw [r1, r2]
    rw [show ((5629499534213120:ℤ) : ℚ) / 2 ^ ((52:ℤ) - 3) = ((10:ℤ):ℚ) from by norm_num]
    rw [Int.floor_intCast]

/-- C4 counterexample: at `elapsed = 29999999999999999`, `total = 10^17`
(inside the claim's quantified range `total > 0`, `elapsed ≥ 0`) the program
renders 3 filled segments — the correctly rounded double of
`29999999999999999 / 10^17` is the double nearest `0.3`, and multiplying it
by 10 rounds up to exactly `3.0` — while the claimed exact formula
`min(10, floor(10 * elapsed / total))` gives 2. -/
theorem claim_C4_counterexample :
    progress_segments 29999999999999999 (10 ^ 17) = 3 ∧
    (progress_bar 29999999999999999 (10 ^ 17)).count '#' = 3 ∧
    min 10 ((10 * 29999999999999999) / 10 ^ 17) = 2 ∧
    progress_segments 29999999999999999 (10 ^ 17)
      ≠ min 10 ((10 * 29999999999999999) / 10 ^ 17) := by
  have hmin : min 10 ((10 * 29999999999999999) / 10 ^ 17) = 2 := by decide
  have hseg : progress_segments 29999999999999999 (10 ^ 17) = 3 := by
    unfold progress_segments
    rw [show ((29999999999999999:ℕ):ℚ) / ((10 ^ 17 : ℕ):ℚ)
        = (29999999999999999:ℚ) / 10 ^ 17 from by push_cast; norm_num]
    have r1 : roundB64 ((29999999999999999:ℚ) / 10 ^ 17)
        = ((5404319552844595:ℤ) : ℚ) / 2 ^ ((52:ℤ) - (-2)) :=
      roundB64_eq _ (by norm_num) _ (by norm_num) (by norm_num) _
        (rnInt_eq_of_bounds _ _ (by norm_num) (by norm_num))
    have r2 : roundB64 (((5404319552844595:ℤ) : ℚ) / 2 ^ ((52:ℤ) - (-2)) * 10)
        = ((6755399441055744:ℤ) : ℚ) / 2 ^ ((52:ℤ) - 1) :=
      roundB64_eq _ (by norm_num) _ (by norm_num) (by norm_num) _
        (rnInt_eq_of_bounds _ _ (by norm_num) (by norm_num))
    rw [r1, r2]
    rw [show ((6755399441055744:ℤ) : ℚ) / 2 ^ ((52:ℤ) - 1) = ((3:ℤ):ℚ) from by norm_num]
    rw [Int.floor_intCast]
    decide
  refine ⟨hseg, ?_, hmin, ?_⟩
  · rw [progress_bar_count]
    exact hseg
  · rw [hseg, hmin]
    decide

/-- C4 (amended): in countdown mode, for every state with
`0 < total_seconds < 2^40` and `elapsed_seconds ≥ 0`, the number of filled
segments in the rendered 10-segment progress bar — computed by the program
in binary64 floating point — equals `min(10, floor(10 * elapsed_seconds /
total_seconds))`.  The bound on `total_seconds` (about 35,000 years, so
every total the program can realistically construct) is forced by the
counterexample: for astronomically large totals the double rounding can
land on the other side of an integer boundary. -/
theorem claim_C4_progress_bar (elapsed total : Nat) (h0 : 0 < total)
    (hbound : total < 2 ^ 40) :
    (progress_bar elapsed total).count '#' = min 10 ((10 * elapsed) / total) := by
  rw [progress_bar_count]
  unfold progress_segments
  rcases Nat.eq_zero_or_pos elapsed with he0 | he
  · subst he0
    norm_num [roundB64]
  have ht0 : (0:ℚ) < (total:ℚ) := by exact_mod_cast h0
  set q : ℚ := (elapsed : ℚ) / (total : ℚ) with hqdef
  have hq : 0 < q := by
    rw [hqdef]
    exact div_pos (by exact_mod_cast he) ht0
  have h10q : 10 * q = ((10 * elapsed : ℕ) : ℚ) / (total:ℚ) := by
    rw [hqdef]
    push_cast
    ring
  have hL : (2:ℚ) ^ ((-53:ℤ)) = 1/9007199254740992 := by norm_num
  by_cases hA : 11 * total ≤ 10 * elapsed
  · -- both sides clamp to 10
    have h10q_ge : (11:ℚ) ≤ 10 * q := by
      rw [h10q, le_div_iff₀ ht0]
      exact_mod_cast hA
    have e1 := abs_le.mp (roundB64_err q hq)
    rw [hL] at e1
    set r1 : ℚ := roundB64 q with hr1def
    have hr1pos : 0 < r1 := by linarith [e1.1]
    have hy_pos : (0:ℚ) < r1 * 10 := by positivity
    have e2 := abs_le.mp (roundB64_err (r1 * 10) hy_pos)
    rw [hL] at e2
    set v : ℚ := roundB64 (r1 * 10) with hvdef
    have hv10 : (10:ℚ) < v := by linarith [e1.1, e2.1]
    have hfl10 : (10:ℤ) ≤ ⌊v⌋ := by
      apply Int.le_floor.mpr
      push_cast
      linarith
    have hRHS : 11 ≤ (10 * elapsed) / total := (Nat.le_div_iff_mul_le h0).mpr hA
    omega
  · -- 10 * q < 11
    have hBlt : 10 * elapsed < 11 * total := by omega
    have hq_ub : q < 11/10 := by
      rw [hqdef, div_lt_div_iff₀ ht0 (by norm_num : (0:ℚ) < 10)]
      have hcast : ((10 * elapsed : ℕ) : ℚ) < ((11 * total : ℕ) : ℚ) := by
        exact_mod_cast hBlt
      push_cast at hcast
      linarith
    by_cases hdvd : total ∣ 10 * elapsed
    · -- the ratio is an exact tenth c/10 with c ≤ 10
      obtain ⟨c, hc⟩ := hdvd
      have hc11 : c < 11 := by
        by_contra hge11
        push_neg at hge11
        have : 11 * total ≤ total * c := by
          calc 11 * total = total * 11 := by ring
            _ ≤ total * c := Nat.mul_le_mul_left total hge11
        omega
      have hcq : q = (c : ℚ) / 10 := by
        rw [hqdef, div_eq_div_iff (ne_of_gt ht0) (by norm_num : (10:ℚ) ≠ 0)]
        have hcast : ((10 * elapsed : ℕ) : ℚ) = ((total * c : ℕ) : ℚ) := by
          exact_mod_cast hc
        push_cast at hcast
        linarith
      have hRHS : (10 * elapsed) / total = c := by
        rw [hc]
        exact Nat.mul_div_cancel_left c h0
      rw [hRHS, hcq, floor_tenths c (by omega)]
      omega
    · -- the ratio lies strictly between two tenths
      set n := (10 * elapsed) / total with hn
      have hmod : (10 * elapsed) % total ≠ 0 := by
        intro h
        exact hdvd (Nat.dvd_of_mod_eq_zero h)
      have hdm : total * n + (10 * elapsed) % total = 10 * elapsed := by
        rw [hn]
        exact Nat.div_add_mod _ _
      have hmlt : (10 * elapsed) % total < total := Nat.mod_lt _ h0
      have hnat1 : total * n + 1 ≤ 10 * elapsed := by omega
      have hnat2 : 10 * elapsed + 1 ≤ total * n + total := by omega
      have hlow : (n:ℚ) + 1 / total ≤ 10 * q := by
        rw [h10q, le_div_iff₀ ht0]
        have hexp : ((n:ℚ) + 1 / total) * total = total * n + 1 := by
          field_simp
          ring
        rw [hexp]
        exact_mod_cast hnat1
      have hhigh : 10 * q ≤ (n:ℚ) + 1 - 1 / total := by
        rw [h10q, div_le_iff₀ ht0]
        have hexp : ((n:ℚ) + 1 - 1 / total) * total = total * n + total - 1 := by
          field_simp
          ring
        rw [hexp]
        have hcast : ((10 * elapsed : ℕ) : ℚ) + 1 ≤ (total:ℚ) * n + total := by
          exact_mod_cast hnat2
        linarith
      have hgap : (1:ℚ) / 2 ^ (40:ℕ) < 1 / total := by
        rw [div_lt_div_iff₀ (by positivity) ht0]
        have hc40 : (total:ℚ) < 2 ^ (40:ℕ) := by exact_mod_cast hbound
        linarith
      have e1 := abs_le.mp (roundB64_err q hq)
      rw [hL] at e1
      set r1 : ℚ := roundB64 q with hr1def
      have hr1pos : 0 < r1 := by linarith [e1.1]
      have hr1_le : r1 ≤ 2 := by linarith [e1.2]
      have hy_pos : (0:ℚ) < r1 * 10 := by positivity
      have e2 := abs_le.mp (roundB64_err (r1 * 10) hy_pos)
      rw [hL] at e2
      set v : ℚ := roundB64 (r1 * 10) with hvdef
      have hverr_low : 10 * q - 31 * (1/9007199254740992 : ℚ) ≤ v := by
        linarith [e1.1, e2.1]
      have hverr_high : v ≤ 10 * q + 31 * (1/9007199254740992 : ℚ) := by
        linarith [e1.2, e2.2]
      have hsmall : (31:ℚ) * (1/9007199254740992) < 1 / 2 ^ (40:ℕ) := by norm_num
      have hfloor : ⌊v⌋ = (n:ℤ) := by
        rw [Int.floor_eq_iff]
        constructor
        · push_cast
          linarith
        · push_cast
          linarith
      rw [hfloor, Int.toNat_natCast]
      exact Nat.min_comm _ _

/-- Witness for C4 (amended) at elapsed 450 of total 900: exactly 5 filled
segments. -/
theorem claim_C4_witness :
    (0 < 900 ∧ 900 < 2 ^ 40) ∧
    (progress_bar 450 900).count '#' = min 10 ((10 * 450) / 900) :=
  ⟨⟨by norm_num, by norm_num⟩, claim_C4_progress_bar 450 900 (by norm_num) (by norm_num)⟩

/-- C5: with a zero countdown total, the very first `count` iteration reaches
`Finished(Natural)` (stopped, not cancelled, nothing finalized), and no
iteration from the initial state ever performs the progress division by
`total_seconds`. -/
theorem claim_C5_zero_total :
    (FloatingTimerWindow.init true 0).tick.running = false ∧
    (FloatingTimerWindow.init true 0).tick.cancelled = false ∧
    (FloatingTimerWindow.init true 0).tick.saved_minutes = none ∧
    ∀ n : Nat,
      (FloatingTimerWindow.tick^[n] (FloatingTimerWindow.init true 0)).tick_divides_by_total
        = false := by
  refine ⟨rfl, rfl, rfl, ?_⟩
  intro n
  cases n with
  | zero => rfl
  | succ k =>
      rw [Function.iterate_succ_apply,
        Function.iterate_fixed (FloatingTimerWindow.tick_of_not_running _ rfl) k]
      rfl

/-- C6: from any reachable non-terminal (still running) state, closing the
window cancels the session and nothing is recorded to the store, in timer
mode and in stopwatch mode alike. -/
theorem claim_C6_cancel_discards (w : FloatingTimerWindow) (preset : Nat)
    (h : Reachable w) (hr : w.running = true) :
    run_timer_recorded w.on_closing preset = none ∧
    run_stopwatch_recorded w.on_closing = none := by
  refine ⟨rfl, ?_⟩
  exact (reachable_running_no_outcome w h hr).1

/-- Witness for C6 on the fresh 1-minute countdown state. -/
theorem claim_C6_witness :
    Reachable (FloatingTimerWindow.init true 1) ∧
    (FloatingTimerWindow.init true 1).running = true ∧
    (run_timer_recorded (FloatingTimerWindow.init true 1).on_closing 1 = none ∧
     run_stopwatch_recorded (FloatingTimerWindow.init true 1).on_closing = none) :=
  ⟨Reachable.start true 1, rfl,
   claim_C6_cancel_discards (FloatingTimerWindow.init true 1) 1
     (Reachable.start true 1) rfl⟩

/-- C7 counterexample: the state reached by closing a fresh 1-minute
countdown window is terminal (`Cancelled`: stopped with `cancelled = true`),
yet invoking `finalize_action` on it is not a no-op — it flips the outcome
to `Finished(UserConfirmed)`. -/
theorem claim_C7_counterexample :
    ((FloatingTimerWindow.init true 1).on_closing.running = false ∧
     (FloatingTimerWindow.init true 1).on_closing.cancelled = true) ∧
    (FloatingTimerWindow.init true 1).on_closing.finalize_action ≠
      (FloatingTimerWindow.init true 1).on_closing := by
  refine ⟨⟨rfl, rfl⟩, ?_⟩
  intro h
  have := congrArg FloatingTimerWindow.cancelled h
  simp [FloatingTimerWindow.finalize_action, FloatingTimerWindow.on_closing] at this

/-- C7 (amended): `on_closing` and `finalize_action` are idempotent with
respect to themselves (re-invoking one on the terminal state it produced is
a no-op), the `count` step is a no-op on any terminal state, and
`toggle_pause` never changes the terminal outcome fields (`running`,
`cancelled`, `saved_minutes`); but `finalize_action` invoked on a `Cancelled`
state overwrites the outcome (see the counterexample), so the operations are
not unconditional no-ops on every terminal state. -/
theorem claim_C7_amended (w : FloatingTimerWindow) :
    w.on_closing.on_closing = w.on_closing ∧
    w.finalize_action.finalize_action = w.finalize_action ∧
    w.on_closing.tick = w.on_closing ∧
    w.finalize_action.tick = w.finalize_action ∧
    w.toggle_pause.running = w.running ∧
    w.toggle_pause.cancelled = w.cancelled ∧
    w.toggle_pause.saved_minutes = w.saved_minutes :=
  ⟨rfl, rfl,
   FloatingTimerWindow.tick_of_not_running _ rfl,
   FloatingTimerWindow.tick_of_not_running _ rfl,
   rfl, rfl, rfl⟩

/-- C8: a missing history file loads as the empty history without a warning;
a corrupt one loads as the empty history with a warning; and every
aggregation (by exact date, by date range as in the weekly view, by calendar
month as in the monthly view, and the full monthly report) over that empty
history yields zero. -/
theorem claim_C8_load_errors :
    load_history .absent = ⟨[], false⟩ ∧
    load_history .corrupt = ⟨[], true⟩ ∧
    (∀ d, aggregate_by_date (load_history .corrupt).history d = 0) ∧
    (∀ lo hi, range_total (load_history .corrupt).history lo hi = 0) ∧
    (∀ y m, monthly_total (load_history .corrupt).history y m = 0) ∧
    (∀ today, show_monthly_history_totals today (load_history .corrupt).history =
      (month_buckets today).map (fun ym => (ym.1, ym.2, 0))) :=
  ⟨rfl, rfl, fun _ => rfl, fun _ _ => rfl, fun _ _ => rfl, fun _ => rfl⟩

set_option maxRecDepth 10000 in
/-- C9: evaluating `show_monthly_history`'s bucket computation
(first-of-month minus `i * 30` days) at today = 2026-03-01 shows the drift:
December 2025 appears as a bucket twice, February 2026 never, and a single
December 2025 session of 10 minutes is summed into two distinct rows. -/
theorem claim_C9_month_drift :
    (month_buckets ⟨2026, 3, 1⟩).count (2025, 12) = 2 ∧
    (2026, 2) ∉ month_buckets ⟨2026, 3, 1⟩ ∧
    (show_monthly_history_totals ⟨2026, 3, 1⟩
        [⟨⟨2025, 12, 15⟩, "2025-12-15 09:00:00", "Estudar", "timer", 10⟩]).count
      (2025, 12, 10) = 2 := by
  decide

/-- C10: in countdown mode `elapsed_seconds` never exceeds `total_seconds`
in any reachable state, and whenever the remaining time is `<= 0` the next
`count` iteration stops the engine instead of incrementing further. -/
theorem claim_C10_elapsed_bounded (w : FloatingTimerWindow)
    (h : Reachable w) (ht : w.is_timer = true) :
    w.elapsed_seconds ≤ w.total_seconds ∧
    (w.running = true → w.paused = false → w.total_seconds ≤ w.elapsed_seconds →
      w.tick.running = false ∧ w.tick.elapsed_seconds = w.elapsed_seconds) := by
  refine ⟨reachable_elapsed_le_total w h ht, fun hr hp hge => ?_⟩
  rw [FloatingTimerWindow.tick_expired w hr hp ht hge]
  exact ⟨rfl, rfl⟩

/-- Witness for C10 on the fresh 1-minute countdown state. -/
theorem claim_C10_witness :
    Reachable (FloatingTimerWindow.init true 1) ∧
    (FloatingTimerWindow.init true 1).is_timer = true ∧
    ((FloatingTimerWindow.init true 1).elapsed_seconds
        ≤ (FloatingTimerWindow.init true 1).total_seconds ∧
     ((FloatingTimerWindow.init true 1).running = true →
      (FloatingTimerWindow.init true 1).paused = false →
      (FloatingTimerWindow.init true 1).total_seconds
          ≤ (FloatingTimerWindow.init true 1).elapsed_seconds →
      (FloatingTimerWindow.init true 1).tick.running = false ∧
      (FloatingTimerWindow.init true 1).tick.elapsed_seconds
        = (FloatingTimerWindow.init true 1).elapsed_seconds)) :=
  ⟨Reachable.start true 1, rfl,
   claim_C10_elapsed_bounded (FloatingTimerWindow.init true 1)
     (Reachable.start true 1) rfl⟩

end TerminalPomodoro
